import Mathlib

/-!
Verification development for the calorie/cost tracker (`src/app.js`).

The JavaScript source is shallowly embedded: numeric values are modelled
as rationals (`ℚ`), JavaScript's non-finite numbers are modelled
explicitly where a function inspects them (`JsNum`), the global mutable
`state` object is modelled as an explicit `JState` record threaded
through the embedded operations, and JavaScript objects used as string
maps are modelled as association lists with first-occurrence lookup and
in-place update, mirroring property-assignment semantics.
-/

namespace CalTracker

/-- The five-field aggregate `{kcal, protein, carbs, fat, price}` used
throughout the source. -/
structure Totals where
  kcal : ℚ
  protein : ℚ
  carbs : ℚ
  fat : ℚ
  price : ℚ
deriving DecidableEq

/-- The zero totals record, `{ kcal: 0, protein: 0, carbs: 0, fat: 0, price: 0 }`. -/
def zeroTotals : Totals := ⟨0, 0, 0, 0, 0⟩

/-- Field-wise addition of totals, as done by the `+=` accumulation loops. -/
def addTotals (a b : Totals) : Totals :=
  ⟨a.kcal + b.kcal, a.protein + b.protein, a.carbs + b.carbs,
   a.fat + b.fat, a.price + b.price⟩

/-- Field-wise scaling of totals by a factor, as in `t.kcal * entry.amount` etc. -/
def scaleTotals (t : Totals) (f : ℚ) : Totals :=
  ⟨t.kcal * f, t.protein * f, t.carbs * f, t.fat * f, t.price * f⟩

/-- Sum of a list of totals (right fold with `addTotals`, starting at zero). -/
def totalsSum (l : List Totals) : Totals := l.foldr addTotals zeroTotals

/-- An ingredient record: `{ id, name, brand, unitType, kcal, protein, carbs, fat, price }`,
the five numeric fields given per one unit of the basis `unitType`. -/
structure Ingredient where
  id : String
  name : String
  brand : String
  unitType : String
  kcal : ℚ
  protein : ℚ
  carbs : ℚ
  fat : ℚ
  price : ℚ
deriving DecidableEq

/-- A recipe line `{ ingredientId, amount }`. -/
structure RecipeItem where
  ingredientId : String
  amount : ℚ
deriving DecidableEq

/-- A recipe `{ id, name, items }`. -/
structure Recipe where
  id : String
  name : String
  items : List RecipeItem
deriving DecidableEq

/-- Embedding of `calcIngredientTotals(ing, amount)` (src/app.js lines 193-206):
factor is `amount / 100` for unit types `"100g"` and `"100ml"`, and `amount`
itself otherwise; every field is the stored field times the factor. -/
def calcIngredientTotals (ing : Ingredient) (amount : ℚ) : Totals :=
  let factor : ℚ :=
    if ing.unitType = "100g" then amount / 100
    else if ing.unitType = "100ml" then amount / 100
    else amount
  ⟨ing.kcal * factor, ing.protein * factor, ing.carbs * factor,
   ing.fat * factor, ing.price * factor⟩

/-- Embedding of `calcRecipeTotals(recipe)` (src/app.js lines 208-222); the
global `state.ingredients` catalog it reads is passed explicitly. Lines whose
ingredient id is not found are skipped by the `continue`. -/
def calcRecipeTotals (ingredients : List Ingredient) (recipe : Recipe) : Totals :=
  recipe.items.foldl (fun t it =>
    match ingredients.find? (fun x => x.id == it.ingredientId) with
    | none => t
    | some ing => addTotals t (calcIngredientTotals ing it.amount))
    zeroTotals

/-- A day-ledger entry `{ id, type, refId, amount, meal? }`. -/
structure Entry where
  id : String
  type : String
  refId : String
  amount : ℚ
  meal : Option String
deriving DecidableEq

/-- The goals record `{ kcal, protein, price, carbs, fat }`. -/
structure Goals where
  kcal : ℚ
  protein : ℚ
  price : ℚ
  carbs : ℚ
  fat : ℚ
deriving DecidableEq

/-- The global `state` object: catalogs, day ledger and goals. `dayLogs` is a
JavaScript object used as a map from day keys to entry lists; it is modelled
as an association list in property-insertion order. -/
structure JState where
  ingredients : List Ingredient
  recipes : List Recipe
  dayLogs : List (String × List Entry)
  goals : Goals
deriving DecidableEq

/-- JavaScript property assignment `m[k] = v` on an object-as-map: replace the
value at the first occurrence of `k`, or append a new key in insertion order. -/
def updateAssoc {β : Type} : List (String × β) → String → β → List (String × β)
  | [], k, v => [(k, v)]
  | p :: rest, k, v =>
      if p.1 == k then (p.1, v) :: rest else p :: updateAssoc rest k v

/-- Embedding of `getDayLog(key)` (src/app.js lines 176-179). Reading the log
of an unseen key first stores an empty list under that key (`state.dayLogs[key] = []`),
so the call returns both the updated state and the list. -/
def getDayLog (st : JState) (key : String) : JState × List Entry :=
  match st.dayLogs.lookup key with
  | some l => (st, l)
  | none => ({ st with dayLogs := st.dayLogs ++ [(key, [])] }, [])

/-- The existence check applied to a day entry by `getVisibleDayEntries`
(src/app.js lines 1328-1333): ingredient entries must resolve in
`state.ingredients`, all other entries in `state.recipes`. -/
def entryResolves (st : JState) (e : Entry) : Bool :=
  if e.type == "ingredient" then st.ingredients.any (fun x => x.id == e.refId)
  else st.recipes.any (fun x => x.id == e.refId)

/-- Embedding of `getVisibleDayEntries(key)` (src/app.js lines 1324-1334):
read the day log (with its insertion side effect) and drop entries whose
`refId` no longer exists. -/
def getVisibleDayEntries (st : JState) (key : String) : JState × List Entry :=
  let r := getDayLog st key
  (r.1, r.2.filter (fun e => entryResolves r.1 e))

/-- Embedding of `calcTotalsForEntries(entries)` (src/app.js lines 1336-1362):
accumulate normalized ingredient totals, and factor-scaled recipe totals, over
the given entries, skipping entries whose reference is not found. -/
def calcTotalsForEntries (st : JState) (entries : List Entry) : Totals :=
  entries.foldl (fun totals e =>
    if e.type == "ingredient" then
      match st.ingredients.find? (fun x => x.id == e.refId) with
      | none => totals
      | some ing => addTotals totals (calcIngredientTotals ing e.amount)
    else
      match st.recipes.find? (fun x => x.id == e.refId) with
      | none => totals
      | some r => addTotals totals (scaleTotals (calcRecipeTotals st.ingredients r) e.amount))
    zeroTotals

/-- Specification-side contribution of one stored day entry, following the
claim's words: normalized ingredient totals for ingredient entries, the
recipe's aggregate totals times the entry's amount for recipe entries, and
zero in every field when the referenced entity no longer exists. -/
def entryContribution (st : JState) (e : Entry) : Totals :=
  if e.type == "ingredient" then
    match st.ingredients.find? (fun x => x.id == e.refId) with
    | none => zeroTotals
    | some ing => calcIngredientTotals ing e.amount
  else
    match st.recipes.find? (fun x => x.id == e.refId) with
    | none => zeroTotals
    | some r => scaleTotals (calcRecipeTotals st.ingredients r) e.amount

/-- Contribution of one recipe line to `calcRecipeTotals`: zero when the
ingredient id is not found in the catalog. -/
def itemContribution (ingredients : List Ingredient) (it : RecipeItem) : Totals :=
  match ingredients.find? (fun x => x.id == it.ingredientId) with
  | none => zeroTotals
  | some ing => calcIngredientTotals ing it.amount

/-- Embedding of the ingredient delete handler (src/app.js lines 705-724):
find the ingredient being edited; refuse with a guard alert when any recipe
line references it; otherwise drop it from `state.ingredients`. Day logs are
kept as-is in both cases. The returned option is the guard error message. -/
def deleteIngredient (st : JState) (editingId : String) : JState × Option String :=
  match st.ingredients.find? (fun x => x.id == editingId) with
  | none => (st, none)
  | some target =>
      if st.recipes.any (fun r => r.items.any (fun it => it.ingredientId == target.id)) then
        (st, some "Diese Zutat ist in einem Gericht enthalten. Entferne sie zuerst aus den Gerichten.")
      else
        ({ st with ingredients := st.ingredients.filter (fun x => !(x.id == target.id)) }, none)

/-- Embedding of the entry delete handler inside `openMealModal`
(src/app.js lines 1095-1101): `state.dayLogs[key] = getDayLog(key).filter(e => e.id !== entry.id)`. -/
def removeEntry (st : JState) (key : String) (entryId : String) : JState :=
  let r := getDayLog st key
  { r.1 with dayLogs := updateAssoc r.1.dayLogs key (r.2.filter (fun e => !(e.id == entryId))) }

/-- Specification-side removal following the claim's words for `remove`:
delete only the first entry whose id matches, keep everything else in order. -/
def removeFirstById : List Entry → String → List Entry
  | [], _ => []
  | e :: rest, entryId =>
      if e.id == entryId then rest else e :: removeFirstById rest entryId

/-! ### Date handling (04:30 rollover)

JavaScript `Date` values are modelled by their local-clock timestamp in
milliseconds: the local civil fields a `Date` exposes (`getFullYear`,
`getMonth`, `getDate`) are recovered from that timestamp by the proleptic
Gregorian conversion below. Subtracting milliseconds from a timestamp, as
`nowDayKeyRollover0430` does via `getTime`, is subtraction on this number. -/

/-- Days since 1970-01-01 of the proleptic Gregorian date `(y, m, d)`
(`m` is 1-based). -/
def daysFromCivil (y m d : ℤ) : ℤ :=
  let y1 := if m ≤ 2 then y - 1 else y
  let era := y1.fdiv 400
  let yoe := y1 - era * 400
  let doy := (153 * (m + (if 2 < m then -3 else 9)) + 2).fdiv 5 + d - 1
  let doe := yoe * 365 + yoe.fdiv 4 - yoe.fdiv 100 + doy
  era * 146097 + doe - 719468

/-- Proleptic Gregorian date `(y, m, d)` of a count of days since 1970-01-01. -/
def civilFromDays (z0 : ℤ) : ℤ × ℤ × ℤ :=
  let z := z0 + 719468
  let era := z.fdiv 146097
  let doe := z - era * 146097
  let yoe := (doe - doe.fdiv 1460 + doe.fdiv 36524 - doe.fdiv 146096).fdiv 365
  let y := yoe + era * 400
  let doy := doe - (365 * yoe + yoe.fdiv 4 - yoe.fdiv 100)
  let mp := (5 * doy + 2).fdiv 153
  let d := doy - (153 * mp + 2).fdiv 5 + 1
  let m := mp + (if mp < 10 then 3 else -9)
  (if m ≤ 2 then y + 1 else y, m, d)

/-- `String(n).padStart(2, "0")` for the month and day components. -/
def padStart2 (s : String) : String :=
  if s.length < 2 then String.mk (List.replicate (2 - s.length) (Char.ofNat 48)) ++ s else s

/-- Local-clock timestamp in milliseconds of the civil datetime
`y-m-d hh:mm:ss`. -/
def localMs (y m d hh mi ss : ℤ) : ℤ :=
  (daysFromCivil y m d * 86400 + hh * 3600 + mi * 60 + ss) * 1000

/-- Embedding of `dayKeyFromDate(d)` (src/app.js lines 100-105) on a
local-clock timestamp: extract the local calendar fields and format
`YYYY-MM-DD` with zero-padded month and day. -/
def dayKeyFromDate (ms : ℤ) : String :=
  match civilFromDays (ms.fdiv 86400000) with
  | (y, m, d) => toString y ++ "-" ++ padStart2 (toString m) ++ "-" ++ padStart2 (toString d)

/-- Embedding of `nowDayKeyRollover0430()` (src/app.js lines 123-128): shift
the current timestamp backwards by 4 h 30 min, then take its day key. -/
def nowDayKeyRollover0430 (nowMs : ℤ) : String :=
  dayKeyFromDate (nowMs - (4 * 60 + 30) * 60 * 1000)

/-! ### Ratio coloring -/

/-- A JavaScript number as inspected by `ratioColor`: either a finite value
or one of the non-finite values (`NaN`, `Infinity`, `-Infinity`). -/
inductive JsNum where
  | num (q : ℚ)
  | nan
  | inf
  | negInf
deriving DecidableEq

/-- `Number.isFinite`. -/
def JsNum.isFinite : JsNum → Bool
  | num _ => true
  | _ => false

/-- A CSS color string as produced by `ratioColor`: either the translucent
`rgba(r,g,b,a)` form or the opaque `rgb(r,g,b)` form. Distinct constructors
model distinct returned strings. -/
inductive CssColor where
  | rgba (r g b : ℤ) (a : ℚ)
  | rgb (r g b : ℤ)
deriving DecidableEq

/-- JavaScript `Math.round`: round half towards positive infinity. -/
def jround (q : ℚ) : ℤ := ⌊q + 1 / 2⌋

/-- Embedding of `ratioColor(value, reference)` (src/app.js lines 225-269).
The guard for non-finite inputs or a non-positive reference returns the
translucent string `"rgba(242,244,248,0.90)"`; the 3% tolerance band returns
the opaque string `"rgb(242,244,248)"`; otherwise the color is interpolated
channel-wise towards green (ratio below 1) or red (ratio above 1). -/
def ratioColor (value reference : JsNum) : CssColor :=
  match value, reference with
  | JsNum.num v, JsNum.num r =>
      if r ≤ 0 then CssColor.rgba 242 244 248 (9 / 10)
      else
        let ratio := v / r
        if |ratio - 1| ≤ 3 / 100 then CssColor.rgb 242 244 248
        else if ratio < 1 then
          let t := max 0 (min 1 ((ratio - 1 / 2) / (1 - 1 / 2)))
          CssColor.rgb (jround (70 + (242 - 70) * t))
            (jround (200 + (244 - 200) * t)) (jround (120 + (248 - 120) * t))
        else
          let t := max 0 (min 1 ((ratio - 1) / (2 - 1)))
          CssColor.rgb (jround (242 + (255 - 242) * t))
            (jround (244 + (107 - 244) * t)) (jround (248 + (107 - 248) * t))
  | _, _ => CssColor.rgba 242 244 248 (9 / 10)

/-! ### Import (JSON document model)

`JSON.parse` output is modelled by `JVal`. Arrays carry, besides their
elements, a list of named properties so that JavaScript property assignment
on an array value stays representable (JSON parsing always produces arrays
with no named properties). -/

/-- A parsed JSON value / JavaScript value as handled by the import code. -/
inductive JVal where
  | null
  | bool (b : Bool)
  | num (q : ℚ)
  | str (s : String)
  | arr (elems : List JVal) (props : List (String × JVal))
  | obj (fields : List (String × JVal))

/-- JavaScript truthiness of a `JVal`. -/
def JVal.truthy : JVal → Bool
  | null => false
  | bool b => b
  | num q => !(q == 0)
  | str s => !(s == "")
  | arr _ _ => true
  | obj _ => true

/-- Whether `typeof v === "object"` holds. -/
def JVal.typeofObject : JVal → Bool
  | null => true
  | arr _ _ => true
  | obj _ => true
  | _ => false

/-- `Array.isArray`. -/
def JVal.isArray : JVal → Bool
  | arr _ _ => true
  | _ => false

/-- Property read `v[k]`; `none` models `undefined`. -/
def JVal.getField : JVal → String → Option JVal
  | obj fields, k => fields.lookup k
  | arr _ props, k => props.lookup k
  | _, _ => none

/-- Property assignment `v[k] = w` on objects and arrays (a no-op on other
values, which the import code never reaches). -/
def JVal.setField : JVal → String → JVal → JVal
  | obj fields, k, w => obj (updateAssoc fields k w)
  | arr elems props, k, w => arr elems (updateAssoc props k w)
  | v, _, _ => v

/-- `Number.isFinite(v[k])` for a property read: true exactly when the
property exists and is a number (JSON numbers are finite). -/
def finiteNumField (v : JVal) (k : String) : Bool :=
  match v.getField k with
  | some (JVal.num _) => true
  | _ => false

/-- The fixed goal defaults `{ kcal: 2500, protein: 160, price: 15, carbs: 300, fat: 80 }`. -/
def goalDefaults : List (String × ℚ) :=
  [("kcal", 2500), ("protein", 160), ("price", 15), ("carbs", 300), ("fat", 80)]

/-- One goal-field patch `parsed.goals.k = Number.isFinite(parsed.goals.k) ? parsed.goals.k : dflt`. -/
def patchGoalField (g : JVal) (k : String) (dflt : ℚ) : JVal :=
  match g.getField k with
  | some (JVal.num q) => g.setField k (JVal.num q)
  | _ => g.setField k (JVal.num dflt)

/-- All five goal-field patches of the import handler, in source order. -/
def patchGoals (g : JVal) : JVal :=
  goalDefaults.foldl (fun acc p => patchGoalField acc p.1 p.2) g

/-- Embedding of the `importFile` change handler (src/app.js lines 412-447)
applied to an already parsed document: the current state document and the
parsed document go in; the resulting state document and whether `saveState()`
was reached (persisting the new document) come out. A thrown validation error
leaves the state untouched and skips the save. -/
def importParsed (cur parsed : JVal) : JVal × Bool :=
  if !(parsed.truthy && parsed.typeofObject) then (cur, false)
  else if !((parsed.getField "ingredients").elim false JVal.isArray) then (cur, false)
  else if !((parsed.getField "recipes").elim false JVal.isArray) then (cur, false)
  else if !((parsed.getField "dayLogs").elim false (fun v => v.truthy && v.typeofObject)) then
    (cur, false)
  else if !((parsed.getField "goals").elim false (fun v => v.truthy && v.typeofObject)) then
    (cur, false)
  else
    let g := (parsed.getField "goals").getD JVal.null
    (parsed.setField "goals" (patchGoals g), true)

/-! ### Claim-side predicates for the import contract -/

/-- The claim's "is an object" test, with JavaScript semantics: a truthy value
whose `typeof` is `"object"`. -/
def isObjectVal (v : JVal) : Bool := v.truthy && v.typeofObject

/-- The claim's "field `k` is an array" test (`Array.isArray(v[k])`). -/
def fieldIsArray (v : JVal) (k : String) : Bool := (v.getField k).elim false JVal.isArray

/-- The claim's "field `k` is an object" test. -/
def fieldIsObject (v : JVal) (k : String) : Bool := (v.getField k).elim false isObjectVal

/-- The claim's rejection condition for an imported document: not an object,
or `ingredients`/`recipes` not arrays, or `dayLogs`/`goals` not objects. -/
def rejectImport (parsed : JVal) : Bool :=
  !(isObjectVal parsed) || !(fieldIsArray parsed "ingredients")
    || !(fieldIsArray parsed "recipes") || !(fieldIsObject parsed "dayLogs")
    || !(fieldIsObject parsed "goals")

/-! ### Sample data used by witnesses -/

/-- The Oats ingredient of the spec's end-to-end scenario. -/
def oats : Ingredient := ⟨"i1", "Oats", "", "100g", 389, 13, 66, 7, 19 / 100⟩

/-- A per-piece sample ingredient. -/
def egg : Ingredient := ⟨"i2", "Egg", "", "piece", 70, 6, 0, 5, 1 / 2⟩

/-- A recipe with one resolvable line (Oats, 80 g) and one dangling line. -/
def sampleRecipe : Recipe := ⟨"r1", "Bowl", [⟨"i1", 80⟩, ⟨"deleted", 50⟩]⟩

/-- A recipe whose only line is dangling. -/
def danglingRecipe : Recipe := ⟨"r2", "Ghost", [⟨"deleted", 50⟩]⟩

/-- First of two distinct entries sharing the id `"a"`. -/
def dupEntryA : Entry := ⟨"a", "ingredient", "x", 1, none⟩

/-- Second of two distinct entries sharing the id `"a"`. -/
def dupEntryB : Entry := ⟨"a", "ingredient", "y", 2, none⟩

/-- A state whose day `"2024-06-01"` stores the two duplicate-id entries. -/
def dupState : JState :=
  ⟨[], [], [("2024-06-01", [dupEntryA, dupEntryB])], ⟨2500, 160, 15, 300, 80⟩⟩

/-- A state with one unreferenced ingredient, one recipe-referenced
ingredient, and a day entry pointing at the unreferenced one. -/
def guardState : JState :=
  ⟨[oats, egg], [⟨"r1", "Bowl", [⟨"i1", 80⟩]⟩],
   [("2024-06-01", [⟨"e1", "ingredient", "i2", 2, some "breakfast"⟩])],
   ⟨2500, 160, 15, 300, 80⟩⟩

/-- A non-object document rejected by the import. -/
def badDoc : JVal := JVal.str "nope"

/-- A well-formed document whose goals carry a finite `kcal` and omit the
other goal fields. -/
def goodDoc : JVal :=
  JVal.obj [("ingredients", JVal.arr [] []), ("recipes", JVal.arr [] []),
    ("dayLogs", JVal.obj []), ("goals", JVal.obj [("kcal", JVal.num 2000)])]

/-! ### Helper lemmas -/

lemma addTotals_zeroTotals (t : Totals) : addTotals t zeroTotals = t := by
  cases t
  simp [addTotals, zeroTotals]

lemma zeroTotals_addTotals (t : Totals) : addTotals zeroTotals t = t := by
  cases t
  simp [addTotals, zeroTotals]

lemma addTotals_assoc (a b c : Totals) :
    addTotals (addTotals a b) c = addTotals a (addTotals b c) := by
  cases a
  cases b
  cases c
  simp only [addTotals, Totals.mk.injEq]
  refine ⟨?_, ?_, ?_, ?_, ?_⟩ <;> ring

lemma addTotals_left_comm (a b c : Totals) :
    addTotals a (addTotals b c) = addTotals b (addTotals a c) := by
  cases a
  cases b
  cases c
  simp only [addTotals, Totals.mk.injEq]
  refine ⟨?_, ?_, ?_, ?_, ?_⟩ <;> ring

lemma totalsSum_nil : totalsSum [] = zeroTotals := rfl

lemma totalsSum_cons (t : Totals) (l : List Totals) :
    totalsSum (t :: l) = addTotals t (totalsSum l) := rfl

lemma totalsSum_perm {l1 l2 : List Totals} (h : l1.Perm l2) :
    totalsSum l1 = totalsSum l2 := by
  induction h with
  | nil => rfl
  | cons x _ ih => rw [totalsSum_cons, totalsSum_cons, ih]
  | swap x y l => rw [totalsSum_cons, totalsSum_cons, totalsSum_cons, totalsSum_cons,
      addTotals_left_comm]
  | trans _ _ ih1 ih2 => exact ih1.trans ih2

lemma foldl_addTotals {α : Type} (f : α → Totals) (l : List α) (acc : Totals) :
    l.foldl (fun t a => addTotals t (f a)) acc = addTotals acc (totalsSum (l.map f)) := by
  induction l generalizing acc with
  | nil => simp [totalsSum_nil, addTotals_zeroTotals]
  | cons a l ih =>
      rw [List.foldl_cons, ih, List.map_cons, totalsSum_cons, addTotals_assoc]

lemma calcRecipeTotals_eq_sum (ingredients : List Ingredient) (r : Recipe) :
    calcRecipeTotals ingredients r = totalsSum (r.items.map (itemContribution ingredients)) := by
  have hstep : (fun (t : Totals) (it : RecipeItem) =>
      match ingredients.find? (fun x => x.id == it.ingredientId) with
      | none => t
      | some ing => addTotals t (calcIngredientTotals ing it.amount)) =
      fun t it => addTotals t (itemContribution ingredients it) := by
    funext t it
    unfold itemContribution
    cases ingredients.find? (fun x => x.id == it.ingredientId) with
    | none => simp [addTotals_zeroTotals]
    | some ing => rfl
  rw [calcRecipeTotals, hstep, foldl_addTotals, zeroTotals_addTotals]

lemma calcTotalsForEntries_eq_sum (st : JState) (entries : List Entry) :
    calcTotalsForEntries st entries = totalsSum (entries.map (entryContribution st)) := by
  have hstep : (fun (totals : Totals) (e : Entry) =>
      if e.type == "ingredient" then
        match st.ingredients.find? (fun x => x.id == e.refId) with
        | none => totals
        | some ing => addTotals totals (calcIngredientTotals ing e.amount)
      else
        match st.recipes.find? (fun x => x.id == e.refId) with
        | none => totals
        | some r => addTotals totals (scaleTotals (calcRecipeTotals st.ingredients r) e.amount)) =
      fun totals e => addTotals totals (entryContribution st e) := by
    funext totals e
    unfold entryContribution
    cases he : (e.type == "ingredient") with
    | true =>
        cases st.ingredients.find? (fun x => x.id == e.refId) with
        | none => simp [addTotals_zeroTotals]
        | some ing => simp
    | false =>
        cases st.recipes.find? (fun x => x.id == e.refId) with
        | none => simp [addTotals_zeroTotals]
        | some r => simp
  rw [calcTotalsForEntries, hstep, foldl_addTotals, zeroTotals_addTotals]

lemma entryContribution_of_not_resolves (st : JState) (e : Entry)
    (h : entryResolves st e = false) : entryContribution st e = zeroTotals := by
  unfold entryResolves at h
  unfold entryContribution
  cases he : (e.type == "ingredient") with
  | true =>
      rw [he] at h
      have hall : ∀ x ∈ st.ingredients, ¬ x.id = e.refId := by simpa using h
      have hnone : st.ingredients.find? (fun x => x.id == e.refId) = none := by
        rw [List.find?_eq_none]
        intro x hx
        simpa using hall x hx
      simp [hnone]
  | false =>
      rw [he] at h
      have hall : ∀ x ∈ st.recipes, ¬ x.id = e.refId := by simpa using h
      have hnone : st.recipes.find? (fun x => x.id == e.refId) = none := by
        rw [List.find?_eq_none]
        intro x hx
        simpa using hall x hx
      simp [hnone]

lemma totalsSum_map_filter_resolves (st : JState) (l : List Entry) :
    totalsSum ((l.filter (fun e => entryResolves st e)).map (entryContribution st)) =
      totalsSum (l.map (entryContribution st)) := by
  induction l with
  | nil => rfl
  | cons e l ih =>
      cases hr : entryResolves st e with
      | true =>
          rw [List.filter_cons_of_pos (by simpa using hr), List.map_cons, List.map_cons,
            totalsSum_cons, totalsSum_cons, ih]
      | false =>
          rw [List.filter_cons_of_neg (by simp [hr]), List.map_cons, totalsSum_cons,
            entryContribution_of_not_resolves st e hr, zeroTotals_addTotals, ih]

lemma lookup_updateAssoc_self {β : Type} (l : List (String × β)) (k : String) (v : β) :
    (updateAssoc l k v).lookup k = some v := by
  induction l with
  | nil => simp [updateAssoc, List.lookup]
  | cons p rest ih =>
      by_cases h : p.1 = k
      · subst h
        simp [updateAssoc, List.lookup]
      · have hb : (p.1 == k) = false := beq_eq_false_iff_ne.mpr h
        have hb2 : (k == p.1) = false := beq_eq_false_iff_ne.mpr (fun hk => h hk.symm)
        simp [updateAssoc, hb, hb2, List.lookup, ih]

lemma lookup_updateAssoc_other {β : Type} (l : List (String × β)) (k k2 : String) (v : β)
    (h : k2 ≠ k) : (updateAssoc l k v).lookup k2 = l.lookup k2 := by
  induction l with
  | nil =>
      simp [updateAssoc, List.lookup, beq_eq_false_iff_ne.mpr h]
  | cons p rest ih =>
      by_cases hp : p.1 = k
      · subst hp
        have hk2 : (k2 == p.1) = false := beq_eq_false_iff_ne.mpr h
        simp [updateAssoc, List.lookup, hk2]
      · have hb : (p.1 == k) = false := beq_eq_false_iff_ne.mpr hp
        cases hq : (k2 == p.1) with
        | true => simp [updateAssoc, hb, List.lookup, hq]
        | false => simp [updateAssoc, hb, List.lookup, hq, ih]

lemma lookup_append_right_none {β : Type} (l1 l2 : List (String × β)) (k : String)
    (h : l1.lookup k = none) : (l1 ++ l2).lookup k = l2.lookup k := by
  induction l1 with
  | nil => rfl
  | cons p rest ih =>
      simp only [List.lookup, List.cons_append] at h ⊢
      cases hq : (k == p.1) with
      | true => rw [hq] at h; simp at h
      | false => rw [hq] at h; exact ih h

lemma lookup_append_left_some {β : Type} (l1 l2 : List (String × β)) (k : String) (v : β)
    (h : l1.lookup k = some v) : (l1 ++ l2).lookup k = some v := by
  induction l1 with
  | nil => simp [List.lookup] at h
  | cons p rest ih =>
      simp only [List.lookup, List.cons_append] at h ⊢
      cases hq : (k == p.1) with
      | true => rw [hq] at h; simpa using h
      | false => rw [hq] at h; exact ih h

lemma totalsSum_map_eq_filterMap (ingredients : List Ingredient) (l : List RecipeItem) :
    totalsSum (l.map (itemContribution ingredients)) =
      totalsSum (l.filterMap (fun it =>
        (ingredients.find? (fun x => x.id == it.ingredientId)).map
          (fun ing => calcIngredientTotals ing it.amount))) := by
  induction l with
  | nil => rfl
  | cons it l ih =>
      cases hf : ingredients.find? (fun x => x.id == it.ingredientId) with
      | none =>
          rw [List.map_cons, totalsSum_cons, List.filterMap_cons]
          simp only [hf, Option.map_none']
          rw [itemContribution, hf, zeroTotals_addTotals, ih]
      | some ing =>
          rw [List.map_cons, totalsSum_cons, List.filterMap_cons]
          simp only [hf, Option.map_some']
          rw [itemContribution, hf, totalsSum_cons, ih]

lemma totalsSum_of_all_zero (l : List Totals) (h : ∀ t ∈ l, t = zeroTotals) :
    totalsSum l = zeroTotals := by
  induction l with
  | nil => rfl
  | cons t l ih =>
      rw [totalsSum_cons, h t (List.mem_cons_self t l), zeroTotals_addTotals]
      exact ih fun x hx => h x (List.mem_cons_of_mem t hx)

/-! ### Claim theorems -/

/-- C2: `calcIngredientTotals(ing, amount)` returns each of the five fields
equal to the stored per-basis field times a factor, the factor being
`amount / 100` for the per-100-gram and per-100-milliliter bases and
`amount` itself otherwise (in particular for the per-piece basis); for a
per-100 basis the call at amount 100 returns exactly the stored fields. -/
theorem calcIngredientTotals_factor (ing : Ingredient) (amount : ℚ) :
    (calcIngredientTotals ing amount =
      ⟨ing.kcal * (if ing.unitType = "100g" ∨ ing.unitType = "100ml" then amount / 100 else amount),
       ing.protein * (if ing.unitType = "100g" ∨ ing.unitType = "100ml" then amount / 100 else amount),
       ing.carbs * (if ing.unitType = "100g" ∨ ing.unitType = "100ml" then amount / 100 else amount),
       ing.fat * (if ing.unitType = "100g" ∨ ing.unitType = "100ml" then amount / 100 else amount),
       ing.price * (if ing.unitType = "100g" ∨ ing.unitType = "100ml" then amount / 100 else amount)⟩) ∧
    ((ing.unitType = "100g" ∨ ing.unitType = "100ml") →
      calcIngredientTotals ing 100 = ⟨ing.kcal, ing.protein, ing.carbs, ing.fat, ing.price⟩) := by
  constructor
  · by_cases hg : ing.unitType = "100g"
    · simp [calcIngredientTotals, hg]
    · by_cases hm : ing.unitType = "100ml"
      · simp [calcIngredientTotals, hg, hm]
      · simp [calcIngredientTotals, hg, hm]
  · rintro (h | h) <;>
      · cases ing
        simp_all [calcIngredientTotals]

/-- C2 witness: the factor law and the identity at 100 instantiated on the
Oats (per 100 g) and Egg (per piece) sample ingredients. -/
theorem calcIngredientTotals_factor_witness :
    calcIngredientTotals egg 2 =
      ⟨egg.kcal * (if egg.unitType = "100g" ∨ egg.unitType = "100ml" then 2 / 100 else 2),
       egg.protein * (if egg.unitType = "100g" ∨ egg.unitType = "100ml" then 2 / 100 else 2),
       egg.carbs * (if egg.unitType = "100g" ∨ egg.unitType = "100ml" then 2 / 100 else 2),
       egg.fat * (if egg.unitType = "100g" ∨ egg.unitType = "100ml" then 2 / 100 else 2),
       egg.price * (if egg.unitType = "100g" ∨ egg.unitType = "100ml" then 2 / 100 else 2)⟩ ∧
    calcIngredientTotals oats 100 = ⟨oats.kcal, oats.protein, oats.carbs, oats.fat, oats.price⟩ :=
  ⟨(calcIngredientTotals_factor egg 2).1,
   (calcIngredientTotals_factor oats 100).2 (Or.inl rfl)⟩

/-- C3: `calcRecipeTotals` sums `calcIngredientTotals(ing, line.amount)` over
exactly those recipe lines whose ingredient id is found in the catalog,
skipping absent lines without error, and yields all-zero totals when no line
resolves (including an empty line list). -/
theorem calcRecipeTotals_resolvable_sum (ingredients : List Ingredient) (r : Recipe) :
    (calcRecipeTotals ingredients r =
      totalsSum (r.items.filterMap (fun it =>
        (ingredients.find? (fun x => x.id == it.ingredientId)).map
          (fun ing => calcIngredientTotals ing it.amount)))) ∧
    ((∀ it ∈ r.items, ingredients.find? (fun x => x.id == it.ingredientId) = none) →
      calcRecipeTotals ingredients r = zeroTotals) := by
  constructor
  · rw [calcRecipeTotals_eq_sum, totalsSum_map_eq_filterMap]
  · intro h
    rw [calcRecipeTotals_eq_sum]
    apply totalsSum_of_all_zero
    intro t ht
    obtain ⟨it, hit, rfl⟩ := List.mem_map.mp ht
    rw [itemContribution, h it hit]

/-- C3 witness: the resolvable-lines sum on a recipe with one valid and one
dangling line, and the all-zero result on a recipe with only dangling lines. -/
theorem calcRecipeTotals_resolvable_sum_witness :
    (calcRecipeTotals [oats] sampleRecipe =
      totalsSum (sampleRecipe.items.filterMap (fun it =>
        (([oats].find? (fun x => x.id == it.ingredientId)).map
          (fun ing => calcIngredientTotals ing it.amount))))) ∧
    calcRecipeTotals [oats] danglingRecipe = zeroTotals :=
  ⟨(calcRecipeTotals_resolvable_sum [oats] sampleRecipe).1,
   (calcRecipeTotals_resolvable_sum [oats] danglingRecipe).2 (by decide)⟩

/-- C9: `calcRecipeTotals` is invariant under any permutation of the recipe's
line list: reordering the lines yields identical totals in every field. -/
theorem calcRecipeTotals_perm_invariant (ingredients : List Ingredient) (r1 r2 : Recipe)
    (h : r1.items.Perm r2.items) :
    calcRecipeTotals ingredients r1 = calcRecipeTotals ingredients r2 := by
  rw [calcRecipeTotals_eq_sum, calcRecipeTotals_eq_sum]
  exact totalsSum_perm (h.map (itemContribution ingredients))

/-- C9 witness: swapping the two lines of the sample recipe leaves the totals
unchanged. -/
theorem calcRecipeTotals_perm_invariant_witness :
    calcRecipeTotals [oats] ⟨"r1", "Bowl", [⟨"i1", 80⟩, ⟨"deleted", 50⟩]⟩ =
      calcRecipeTotals [oats] ⟨"r1", "Bowl", [⟨"deleted", 50⟩, ⟨"i1", 80⟩]⟩ :=
  calcRecipeTotals_perm_invariant [oats] _ _ (List.Perm.swap _ _ _)

/-- C1: for every day key, the day totals computed from the visible entries
equal the sum, over all stored entries of that day, of each entry's
contribution: normalized ingredient totals for resolvable ingredient entries,
factor-scaled recipe totals for resolvable recipe entries, and zero in every
field for entries whose reference no longer exists. -/
theorem dayTotals_eq_contributionSum (st : JState) (key : String) :
    calcTotalsForEntries (getVisibleDayEntries st key).1 (getVisibleDayEntries st key).2 =
      totalsSum (((st.dayLogs.lookup key).getD []).map (entryContribution st)) := by
  obtain ⟨ings, recs, logs, gls⟩ := st
  cases hl : List.lookup key logs with
  | some l =>
      simp only [getVisibleDayEntries, getDayLog, hl, Option.getD_some]
      rw [calcTotalsForEntries_eq_sum, totalsSum_map_filter_resolves]
  | none =>
      simp only [getVisibleDayEntries, getDayLog, hl]
      rw [List.filter_nil, calcTotalsForEntries_eq_sum]
      rfl

/-- C4: `nowDayKeyRollover0430` equals the calendar date, formatted
`YYYY-MM-DD` with zero-padded month and day from the local calendar fields,
of the instant 4 hours 30 minutes before now; at local time 04:29:59 on
2024-06-02 it returns `"2024-06-01"`, and at 04:30:00 on 2024-06-02 it
returns `"2024-06-02"`. -/
theorem nowDayKey_rollover_rule :
    (∀ nowMs : ℤ,
      nowDayKeyRollover0430 nowMs =
        (let c := civilFromDays ((nowMs - (4 * 60 + 30) * 60 * 1000).fdiv 86400000)
         toString c.1 ++ "-" ++ padStart2 (toString c.2.1) ++ "-" ++ padStart2 (toString c.2.2))) ∧
    nowDayKeyRollover0430 (localMs 2024 6 2 4 29 59) = "2024-06-01" ∧
    nowDayKeyRollover0430 (localMs 2024 6 2 4 30 0) = "2024-06-02" := by
  refine ⟨fun nowMs => rfl, by decide, by decide⟩

/-- C10: reading the entry list of a day key not yet stored is not a pure
read: both `getDayLog` and `getVisibleDayEntries` insert an empty list under
that key, so the key is afterwards present in the state document's `dayLogs`
mapping (which is what the next save persists). -/
theorem getDayLog_inserts_missing_key (st : JState) (key : String)
    (h : st.dayLogs.lookup key = none) :
    (getDayLog st key).1.dayLogs.lookup key = some [] ∧
      (getVisibleDayEntries st key).1.dayLogs.lookup key = some [] := by
  obtain ⟨ings, recs, logs, gls⟩ := st
  simp only [List.lookup] at h
  constructor
  · simp only [getDayLog, h]
    rw [lookup_append_right_none logs [(key, [])] key h]
    simp [List.lookup]
  · simp only [getVisibleDayEntries, getDayLog, h]
    rw [lookup_append_right_none logs [(key, [])] key h]
    simp [List.lookup]

/-- C10 witness: the insertion observed on an initially empty state. -/
theorem getDayLog_inserts_missing_key_witness :
    (getDayLog ⟨[], [], [], ⟨2500, 160, 15, 300, 80⟩⟩ "2024-06-01").1.dayLogs.lookup
        "2024-06-01" = some [] ∧
      (getVisibleDayEntries ⟨[], [], [], ⟨2500, 160, 15, 300, 80⟩⟩ "2024-06-01").1.dayLogs.lookup
        "2024-06-01" = some [] :=
  getDayLog_inserts_missing_key ⟨[], [], [], ⟨2500, 160, 15, 300, 80⟩⟩ "2024-06-01" rfl

/-- C8 counterexample: on a day list holding two entries with the same id,
the delete handler empties the list, while removing only the first matching
entry would keep the later duplicate. -/
theorem removeEntry_not_first_only :
    ((removeEntry dupState "2024-06-01" "a").dayLogs.lookup "2024-06-01").getD [] ≠
      removeFirstById [dupEntryA, dupEntryB] "a" := by decide

/-- C8 amended: the delete handler removes every entry with the matching id
from that day's stored list (later duplicates included), preserving the
relative order of the remaining entries; it is a no-op on the list when no
entry has the id, and other day keys' lists are untouched. -/
theorem removeEntry_removes_all_matching (st : JState) (key entryId : String) :
    (((removeEntry st key entryId).dayLogs.lookup key).getD [] =
      ((st.dayLogs.lookup key).getD []).filter (fun e => !(e.id == entryId))) ∧
    ((∀ e ∈ (st.dayLogs.lookup key).getD [], e.id ≠ entryId) →
      ((removeEntry st key entryId).dayLogs.lookup key).getD [] =
        (st.dayLogs.lookup key).getD []) ∧
    (∀ k2, k2 ≠ key →
      (removeEntry st key entryId).dayLogs.lookup k2 = st.dayLogs.lookup k2) := by
  obtain ⟨ings, recs, logs, gls⟩ := st
  cases hl : List.lookup key logs with
  | some l =>
      refine ⟨?_, ?_, ?_⟩
      · simp only [removeEntry, getDayLog, hl, Option.getD_some]
        rw [lookup_updateAssoc_self]
        rfl
      · intro hno
        simp only [removeEntry, getDayLog, hl, Option.getD_some] at hno ⊢
        rw [lookup_updateAssoc_self, Option.getD_some]
        exact List.filter_eq_self.mpr fun e he => by
          simpa using hno e he
      · intro k2 hk2
        simp only [removeEntry, getDayLog, hl]
        exact lookup_updateAssoc_other logs key k2 _ hk2
  | none =>
      refine ⟨?_, ?_, ?_⟩
      · simp only [removeEntry, getDayLog, hl, Option.getD_none]
        rw [List.filter_nil, lookup_updateAssoc_self]
        rfl
      · intro _
        simp only [removeEntry, getDayLog, hl, Option.getD_none]
        rw [List.filter_nil, lookup_updateAssoc_self]
        rfl
      · intro k2 hk2
        simp only [removeEntry, getDayLog, hl]
        rw [lookup_updateAssoc_other _ key k2 _ hk2]
        cases hk : List.lookup k2 logs with
        | some v =>
            rw [lookup_append_left_some logs [(key, [])] k2 v hk]
        | none =>
            rw [lookup_append_right_none logs [(key, [])] k2 hk]
            simp [List.lookup, beq_eq_false_iff_ne.mpr hk2]

/-- C8 amended witness: the filter law, the no-op case and the frame on
another day key, instantiated on the duplicate-id state. -/
theorem removeEntry_removes_all_matching_witness :
    (((removeEntry dupState "2024-06-01" "a").dayLogs.lookup "2024-06-01").getD [] =
      ((dupState.dayLogs.lookup "2024-06-01").getD []).filter (fun e => !(e.id == "a"))) ∧
    (((removeEntry dupState "2024-06-01" "zz").dayLogs.lookup "2024-06-01").getD [] =
      (dupState.dayLogs.lookup "2024-06-01").getD []) ∧
    (removeEntry dupState "2024-06-01" "a").dayLogs.lookup "other" =
      dupState.dayLogs.lookup "other" :=
  ⟨(removeEntry_removes_all_matching dupState "2024-06-01" "a").1,
   (removeEntry_removes_all_matching dupState "2024-06-01" "zz").2.1 (by decide),
   (removeEntry_removes_all_matching dupState "2024-06-01" "a").2.2 "other" (by decide)⟩

/-- C7 counterexample: the non-finite guard of `ratioColor` returns the
translucent string `"rgba(242,244,248,0.90)"` while the tolerance band
returns the opaque string `"rgb(242,244,248)"`, so the two named cases do
not return one and the same color. -/
theorem ratioColor_not_single_base_color :
    ratioColor JsNum.nan (JsNum.num 10) ≠ ratioColor (JsNum.num 5) (JsNum.num 5) := by
  have h1 : ratioColor JsNum.nan (JsNum.num 10) = CssColor.rgba 242 244 248 (9 / 10) := rfl
  have h2 : ratioColor (JsNum.num 5) (JsNum.num 5) = CssColor.rgb 242 244 248 := by
    rw [ratioColor]
    rw [if_neg (by norm_num : ¬ (5 : ℚ) ≤ 0),
      if_pos (by norm_num : |(5 : ℚ) / 5 - 1| ≤ 3 / 100)]
  rw [h1, h2]
  simp

/-- C7 amended: `ratioColor` returns the translucent base color
`rgba(242,244,248,0.90)` whenever `value` or `reference` is non-finite or the
reference is non-positive, and the opaque base color `rgb(242,244,248)`
whenever both are finite, the reference is positive and `|value/reference - 1| ≤ 0.03`;
in particular `ratioColor(v, v)` for positive finite `v` yields the opaque
base color and `ratioColor(NaN, 10)` the translucent one. -/
theorem ratioColor_base_cases (value reference : JsNum) (v r : ℚ) :
    ((value.isFinite = false ∨ reference.isFinite = false) →
      ratioColor value reference = CssColor.rgba 242 244 248 (9 / 10)) ∧
    (r ≤ 0 → ratioColor value (JsNum.num r) = CssColor.rgba 242 244 248 (9 / 10)) ∧
    (0 < r → |v / r - 1| ≤ 3 / 100 →
      ratioColor (JsNum.num v) (JsNum.num r) = CssColor.rgb 242 244 248) ∧
    (0 < v → ratioColor (JsNum.num v) (JsNum.num v) = CssColor.rgb 242 244 248) := by
  refine ⟨?_, ?_, ?_, ?_⟩
  · rintro (h | h) <;> cases value <;> cases reference <;>
      simp_all [JsNum.isFinite, ratioColor]
  · intro hr
    cases value <;> simp [ratioColor, hr]
  · intro hr htol
    rw [ratioColor]
    rw [if_neg (not_le.mpr hr), if_pos htol]
  · intro hv
    have htol : |v / v - 1| ≤ 3 / 100 := by
      rw [div_self (ne_of_gt hv)]
      norm_num
    rw [ratioColor]
    rw [if_neg (not_le.mpr hv), if_pos htol]

/-- C7 amended witness: the translucent guard at `NaN` and at a negative
reference, and the opaque tolerance band at equal positive arguments. -/
theorem ratioColor_base_cases_witness :
    ratioColor JsNum.nan (JsNum.num 10) = CssColor.rgba 242 244 248 (9 / 10) ∧
    ratioColor (JsNum.num 5) (JsNum.num (-1)) = CssColor.rgba 242 244 248 (9 / 10) ∧
    ratioColor (JsNum.num 5) (JsNum.num 5) = CssColor.rgb 242 244 248 :=
  ⟨(ratioColor_base_cases JsNum.nan (JsNum.num 10) 0 1).1 (Or.inl rfl),
   (ratioColor_base_cases (JsNum.num 5) (JsNum.num (-1)) 0 (-1)).2.1 (by norm_num),
   (ratioColor_base_cases (JsNum.num 5) (JsNum.num 5) 5 5).2.2.2 (by norm_num)⟩

lemma filter_ne_id_eq_erase (l : List Ingredient) (t : Ingredient)
    (hnodup : (l.map Ingredient.id).Nodup)
    (hfind : l.find? (fun x => x.id == t.id) = some t) :
    l.filter (fun x => !(x.id == t.id)) = l.erase t := by
  induction l with
  | nil => simp [List.find?] at hfind
  | cons a l ih =>
      rw [List.map_cons, List.nodup_cons] at hnodup
      cases ha : (a.id == t.id) with
      | true =>
          have hat : a = t := by
            simp only [List.find?_cons, ha] at hfind
            simpa using hfind
          subst hat
          rw [List.filter_cons_of_neg (by simp [ha]), List.erase_cons_head]
          apply List.filter_eq_self.mpr
          intro x hx
          have hne : x.id ≠ a.id := by
            intro he
            exact hnodup.1 (he ▸ List.mem_map_of_mem Ingredient.id hx)
          simpa using hne
      | false =>
          have hat : a ≠ t := by
            intro he
            rw [he] at ha
            simp at ha
          simp only [List.find?_cons, ha] at hfind
          rw [List.filter_cons_of_pos (by simp [ha]),
            List.erase_cons_tail (by simpa using hat), ih hnodup.2 hfind]

/-- C5: deleting an ingredient referenced by some recipe line fails with the
guard alert and leaves the whole state unchanged; deleting an unreferenced
ingredient removes exactly that ingredient from the catalog (under unique
catalog ids), leaves the recipe catalog and the day ledger unchanged, and
makes any stored day entry referencing it contribute zero to aggregation. -/
theorem deleteIngredient_guard (st : JState) (editingId : String) (target : Ingredient)
    (e : Entry) (hfind : st.ingredients.find? (fun x => x.id == editingId) = some target)
    (hnodup : (st.ingredients.map Ingredient.id).Nodup)
    (hty : e.type = "ingredient") (href : e.refId = target.id) :
    (st.recipes.any (fun r => r.items.any (fun it => it.ingredientId == target.id)) = true →
      deleteIngredient st editingId =
        (st, some "Diese Zutat ist in einem Gericht enthalten. Entferne sie zuerst aus den Gerichten.")) ∧
    (st.recipes.any (fun r => r.items.any (fun it => it.ingredientId == target.id)) = false →
      (deleteIngredient st editingId).2 = none ∧
      (deleteIngredient st editingId).1.ingredients = st.ingredients.erase target ∧
      (deleteIngredient st editingId).1.recipes = st.recipes ∧
      (deleteIngredient st editingId).1.dayLogs = st.dayLogs ∧
      entryContribution (deleteIngredient st editingId).1 e = zeroTotals) := by
  constructor
  · intro hused
    rw [deleteIngredient, hfind]
    simp [hused]
  · intro hunused
    have hres : deleteIngredient st editingId =
        ({ st with ingredients := st.ingredients.filter (fun x => !(x.id == target.id)) }, none) := by
      rw [deleteIngredient, hfind]
      simp [hunused]
    rw [hres]
    have hfe : st.ingredients.filter (fun x => !(x.id == target.id)) =
        st.ingredients.erase target := filter_ne_id_eq_erase st.ingredients target hnodup
      (by
        have hid : target.id = editingId := by
          have := List.find?_some hfind
          simpa using this
        rw [hid]
        exact hfind)
    refine ⟨rfl, hfe, rfl, rfl, ?_⟩
    have hnone : (st.ingredients.filter (fun x => !(x.id == target.id))).find?
        (fun x => x.id == e.refId) = none := by
      rw [List.find?_eq_none]
      intro x hx
      have hxne : (x.id == target.id) = false := by
        have hmem := List.of_mem_filter hx
        simpa using hmem
      rw [href]
      simpa using hxne
    simp [entryContribution, hty, hnone]

/-- C5 witness: the guard refusal on the recipe-referenced ingredient and the
successful catalog-only removal of the unreferenced one, on `guardState`. -/
theorem deleteIngredient_guard_witness :
    (deleteIngredient guardState "i1" =
      (guardState, some "Diese Zutat ist in einem Gericht enthalten. Entferne sie zuerst aus den Gerichten.")) ∧
    ((deleteIngredient guardState "i2").2 = none ∧
      (deleteIngredient guardState "i2").1.ingredients = guardState.ingredients.erase egg ∧
      (deleteIngredient guardState "i2").1.recipes = guardState.recipes ∧
      (deleteIngredient guardState "i2").1.dayLogs = guardState.dayLogs ∧
      entryContribution (deleteIngredient guardState "i2").1
        ⟨"e1", "ingredient", "i2", 2, some "breakfast"⟩ = zeroTotals) :=
  ⟨(deleteIngredient_guard guardState "i1" oats ⟨"e1", "ingredient", "i1", 2, none⟩
      rfl (by decide) rfl rfl).1 (by decide),
   (deleteIngredient_guard guardState "i2" egg ⟨"e1", "ingredient", "i2", 2, some "breakfast"⟩
      rfl (by decide) rfl rfl).2 (by decide)⟩

lemma getField_setField_self (v : JVal) (k : String) (w : JVal)
    (hobj : isObjectVal v = true) : (v.setField k w).getField k = some w := by
  cases v with
  | obj fields => exact lookup_updateAssoc_self fields k w
  | arr elems props => exact lookup_updateAssoc_self props k w
  | null => simp [isObjectVal, JVal.truthy] at hobj
  | bool b => simp [isObjectVal, JVal.typeofObject] at hobj
  | num q => simp [isObjectVal, JVal.typeofObject] at hobj
  | str s => simp [isObjectVal, JVal.typeofObject] at hobj

lemma getField_setField_other (v : JVal) (k k2 : String) (w : JVal) (h : k2 ≠ k) :
    (v.setField k w).getField k2 = v.getField k2 := by
  cases v with
  | obj fields => exact lookup_updateAssoc_other fields k k2 w h
  | arr elems props => exact lookup_updateAssoc_other props k k2 w h
  | null => rfl
  | bool b => rfl
  | num q => rfl
  | str s => rfl

lemma getField_patchGoalField_self (g : JVal) (k : String) (d : ℚ)
    (hobj : isObjectVal g = true) :
    (patchGoalField g k d).getField k =
      if finiteNumField g k = true then g.getField k else some (JVal.num d) := by
  unfold patchGoalField finiteNumField
  cases hf : g.getField k with
  | none => simp [getField_setField_self g k _ hobj]
  | some v =>
      cases v with
      | num q => simp [getField_setField_self g k _ hobj]
      | null => simp [getField_setField_self g k _ hobj]
      | bool b => simp [getField_setField_self g k _ hobj]
      | str s => simp [getField_setField_self g k _ hobj]
      | arr elems props => simp [getField_setField_self g k _ hobj]
      | obj fields => simp [getField_setField_self g k _ hobj]

lemma getField_patchGoalField_other (g : JVal) (k k2 : String) (d : ℚ) (h : k2 ≠ k) :
    (patchGoalField g k d).getField k2 = g.getField k2 := by
  unfold patchGoalField
  cases g.getField k with
  | none => exact getField_setField_other g k k2 _ h
  | some v =>
      cases v with
      | num q => exact getField_setField_other g k k2 _ h
      | null => exact getField_setField_other g k k2 _ h
      | bool b => exact getField_setField_other g k k2 _ h
      | str s => exact getField_setField_other g k k2 _ h
      | arr elems props => exact getField_setField_other g k k2 _ h
      | obj fields => exact getField_setField_other g k k2 _ h

lemma isObjectVal_setField (v : JVal) (k : String) (w : JVal) :
    isObjectVal (v.setField k w) = isObjectVal v := by
  cases v <;> rfl

lemma isObjectVal_patchGoalField (g : JVal) (k : String) (d : ℚ) :
    isObjectVal (patchGoalField g k d) = isObjectVal g := by
  unfold patchGoalField
  cases g.getField k with
  | none => exact isObjectVal_setField g k _
  | some v =>
      cases v with
      | num q => exact isObjectVal_setField g k _
      | null => exact isObjectVal_setField g k _
      | bool b => exact isObjectVal_setField g k _
      | str s => exact isObjectVal_setField g k _
      | arr elems props => exact isObjectVal_setField g k _
      | obj fields => exact isObjectVal_setField g k _

lemma finiteNumField_congr (a b : JVal) (k : String) (h : a.getField k = b.getField k) :
    finiteNumField a k = finiteNumField b k := by
  unfold finiteNumField
  rw [h]

lemma getField_patchGoals (g : JVal) (hobj : isObjectVal g = true) (k : String) (d : ℚ)
    (hkd : (k, d) ∈ goalDefaults) :
    (patchGoals g).getField k =
      if finiteNumField g k = true then g.getField k else some (JVal.num d) := by
  have hg1 : patchGoals g =
      patchGoalField (patchGoalField (patchGoalField (patchGoalField
        (patchGoalField g "kcal" 2500) "protein" 160) "price" 15) "carbs" 300) "fat" 80 := rfl
  have hobj1 : isObjectVal (patchGoalField g "kcal" 2500) = true := by
    rw [isObjectVal_patchGoalField]; exact hobj
  have hobj2 : isObjectVal (patchGoalField (patchGoalField g "kcal" 2500) "protein" 160) = true := by
    rw [isObjectVal_patchGoalField]; exact hobj1
  have hobj3 : isObjectVal (patchGoalField (patchGoalField
      (patchGoalField g "kcal" 2500) "protein" 160) "price" 15) = true := by
    rw [isObjectVal_patchGoalField]; exact hobj2
  have hobj4 : isObjectVal (patchGoalField (patchGoalField (patchGoalField
      (patchGoalField g "kcal" 2500) "protein" 160) "price" 15) "carbs" 300) = true := by
    rw [isObjectVal_patchGoalField]; exact hobj3
  simp only [goalDefaults, List.mem_cons, List.not_mem_nil, or_false] at hkd
  rcases hkd with h | h | h | h | h <;> rw [Prod.mk.injEq] at h <;>
    obtain ⟨rfl, rfl⟩ := h <;> rw [hg1]
  · rw [getField_patchGoalField_other _ _ _ _ (by decide),
      getField_patchGoalField_other _ _ _ _ (by decide),
      getField_patchGoalField_other _ _ _ _ (by decide),
      getField_patchGoalField_other _ _ _ _ (by decide),
      getField_patchGoalField_self g _ _ hobj]
  · rw [getField_patchGoalField_other _ _ _ _ (by decide),
      getField_patchGoalField_other _ _ _ _ (by decide),
      getField_patchGoalField_other _ _ _ _ (by decide),
      getField_patchGoalField_self _ _ _ hobj1,
      finiteNumField_congr _ g _ (getField_patchGoalField_other _ _ _ _ (by decide)),
      getField_patchGoalField_other _ _ _ _ (by decide)]
  · rw [getField_patchGoalField_other _ _ _ _ (by decide),
      getField_patchGoalField_other _ _ _ _ (by decide),
      getField_patchGoalField_self _ _ _ hobj2,
      finiteNumField_congr _ g _ (by
        rw [getField_patchGoalField_other _ _ _ _ (by decide),
          getField_patchGoalField_other _ _ _ _ (by decide)]),
      getField_patchGoalField_other _ _ _ _ (by decide),
      getField_patchGoalField_other _ _ _ _ (by decide)]
  · rw [getField_patchGoalField_other _ _ _ _ (by decide),
      getField_patchGoalField_self _ _ _ hobj3,
      finiteNumField_congr _ g _ (by
        rw [getField_patchGoalField_other _ _ _ _ (by decide),
          getField_patchGoalField_other _ _ _ _ (by decide),
          getField_patchGoalField_other _ _ _ _ (by decide)]),
      getField_patchGoalField_other _ _ _ _ (by decide),
      getField_patchGoalField_other _ _ _ _ (by decide),
      getField_patchGoalField_other _ _ _ _ (by decide)]
  · rw [getField_patchGoalField_self _ _ _ hobj4,
      finiteNumField_congr _ g _ (by
        rw [getField_patchGoalField_other _ _ _ _ (by decide),
          getField_patchGoalField_other _ _ _ _ (by decide),
          getField_patchGoalField_other _ _ _ _ (by decide),
          getField_patchGoalField_other _ _ _ _ (by decide)]),
      getField_patchGoalField_other _ _ _ _ (by decide),
      getField_patchGoalField_other _ _ _ _ (by decide),
      getField_patchGoalField_other _ _ _ _ (by decide),
      getField_patchGoalField_other _ _ _ _ (by decide)]

lemma importParsed_eq (cur parsed : JVal) :
    importParsed cur parsed =
      if rejectImport parsed = true then (cur, false)
      else (parsed.setField "goals"
        (patchGoals ((parsed.getField "goals").getD JVal.null)), true) := by
  unfold importParsed rejectImport fieldIsArray fieldIsObject isObjectVal
  cases h1 : parsed.truthy && parsed.typeofObject <;>
    cases h2 : (parsed.getField "ingredients").elim false JVal.isArray <;>
      cases h3 : (parsed.getField "recipes").elim false JVal.isArray <;>
        cases h4 : (parsed.getField "dayLogs").elim false
            (fun v => v.truthy && v.typeofObject) <;>
          cases h5 : (parsed.getField "goals").elim false
              (fun v => v.truthy && v.typeofObject) <;>
            simp [h1, h2, h3, h4, h5]

/-- C6: importing a parsed document rejects it, leaving the current state
document untouched and unpersisted, whenever the document is not an object or
its `ingredients`/`recipes` fields are not arrays or its `dayLogs`/`goals`
fields are not objects; otherwise the state document is replaced by the
imported one, every goal field that is missing or not a finite number is
replaced by its fixed default (2500 kcal, 160 protein, 15 price, 300 carbs,
80 fat), finite numeric goal fields are kept, and the result is persisted. -/
theorem importParsed_contract (cur parsed : JVal) :
    (rejectImport parsed = true → importParsed cur parsed = (cur, false)) ∧
    (rejectImport parsed = false →
      (importParsed cur parsed).2 = true ∧
      (∀ k : String, k ≠ "goals" →
        (importParsed cur parsed).1.getField k = parsed.getField k) ∧
      (importParsed cur parsed).1.getField "goals" =
        some (patchGoals ((parsed.getField "goals").getD JVal.null)) ∧
      (∀ k : String, ∀ d : ℚ, (k, d) ∈ goalDefaults →
        (patchGoals ((parsed.getField "goals").getD JVal.null)).getField k =
          if finiteNumField ((parsed.getField "goals").getD JVal.null) k = true
          then ((parsed.getField "goals").getD JVal.null).getField k
          else some (JVal.num d))) := by
  constructor
  · intro hrej
    rw [importParsed_eq, if_pos hrej]
  · intro hrej
    rw [importParsed_eq, if_neg (by simp [hrej])]
    have hobjParsed : isObjectVal parsed = true := by
      by_contra hc
      have hfalse : isObjectVal parsed = false := by
        cases hio : isObjectVal parsed
        · rfl
        · exact absurd hio hc
      rw [rejectImport, hfalse] at hrej
      simp at hrej
    have hgoals : fieldIsObject parsed "goals" = true := by
      by_contra hc
      have hfalse : fieldIsObject parsed "goals" = false := by
        cases hio : fieldIsObject parsed "goals"
        · rfl
        · exact absurd hio hc
      rw [rejectImport, hfalse] at hrej
      simp at hrej
    have hobjGoals : isObjectVal ((parsed.getField "goals").getD JVal.null) = true := by
      rw [fieldIsObject] at hgoals
      cases hgf : parsed.getField "goals" with
      | none => rw [hgf] at hgoals; simp at hgoals
      | some g => rw [hgf] at hgoals; simpa using hgoals
    refine ⟨rfl, ?_, ?_, ?_⟩
    · intro k hk
      exact getField_setField_other parsed "goals" k _ hk
    · exact getField_setField_self parsed "goals" _ hobjParsed
    · intro k d hkd
      exact getField_patchGoals _ hobjGoals k d hkd

/-- C6 witness: a string document is rejected leaving the state untouched; a
well-formed document is accepted, its non-goal fields are taken over verbatim
and its goal fields are default-filled per field. -/
theorem importParsed_contract_witness :
    importParsed (JVal.obj []) badDoc = (JVal.obj [], false) ∧
    (importParsed (JVal.obj []) goodDoc).2 = true ∧
    (importParsed (JVal.obj []) goodDoc).1.getField "ingredients" =
      goodDoc.getField "ingredients" ∧
    (patchGoals ((goodDoc.getField "goals").getD JVal.null)).getField "kcal" =
      (if finiteNumField ((goodDoc.getField "goals").getD JVal.null) "kcal" = true
       then ((goodDoc.getField "goals").getD JVal.null).getField "kcal"
       else some (JVal.num 2500)) :=
  ⟨(importParsed_contract (JVal.obj []) badDoc).1 rfl,
   ((importParsed_contract (JVal.obj []) goodDoc).2 rfl).1,
   ((importParsed_contract (JVal.obj []) goodDoc).2 rfl).2.1 "ingredients" (by decide),
   ((importParsed_contract (JVal.obj []) goodDoc).2 rfl).2.2.2 "kcal" 2500 (by decide)⟩

end CalTracker
